import Mathlib

/-!
Verification of `tty_doc` (src/main.rs), a desktop text-file viewer with
syntax highlighting and an AI (Ollama) side panel.

Shallow embedding conventions:
* A Rust `String` (UTF-8 text) is modelled as `List Char` of its Unicode
  scalar values; `str` turns a Lean string literal into that model.
* Byte positions are modelled by the UTF-8 encoded size of each scalar
  (`charBytes`, mirroring Rust `char::len_utf8`).
* A Rust operation that can panic (byte-slicing a string at a
  non-character-boundary index) returns `Option`, with `none` for the panic.
* The external syntect tokenizer (`HighlightLines::highlight_line`) is a
  parameter `tok : Nat → List Char → Option (List (Style × List Char))`
  giving, for each line index and line text, the styled ranges of that line
  (`none` models the `Err` branch that the code turns into a single
  unstyled fragment). Syntax/theme detection only selects which tokenizer
  runs, so it is absorbed into `tok`.
* The filesystem as seen by one `load_file` call is the `FsEntry` for the
  app's path: not existing, failing to read, or the decoded content.
* Spawning the worker thread is modelled by returning the `Dispatch`
  (model and prompt of the HTTP request) next to the post-spawn app state;
  the worker body is `ai_worker`, a function of the HTTP outcome.
-/

set_option maxRecDepth 100000

/-- Turn a Lean string literal into the `List Char` model of a Rust string. -/
def str (s : String) : List Char := s.data

/-- UTF-8 encoded size of one Unicode scalar value, as Rust `char::len_utf8`. -/
def charBytes (c : Char) : Nat :=
  if c.val < 0x80 then 1
  else if c.val < 0x800 then 2
  else if c.val < 0x10000 then 3
  else 4

/-- Rust `str::len`: the UTF-8 byte length of the text. -/
def byteLen (s : List Char) : Nat := (s.map charBytes).sum

/-- Rust byte-slicing `&s[..n]`: the characters occupying the first `n`
bytes, or `none` (a panic) when `n` is not a character boundary of `s`
(including `n` past the end). -/
def takeBytes : List Char → Nat → Option (List Char)
  | _, 0 => some []
  | [], _ + 1 => none
  | c :: cs, n + 1 =>
    if charBytes c ≤ n + 1 then
      (takeBytes cs (n + 1 - charBytes c)).map (c :: ·)
    else none

/-- The truncation pattern used by `generate_initial_summary` (limit 4000)
and `ask_question` (limit 3000):
`if s.len() > limit { format!("{}...", &s[..limit]) } else { s }`.
`none` models the byte-slice panic. -/
def truncateBytes (limit : Nat) (s : List Char) : Option (List Char) :=
  if byteLen s > limit then (takeBytes s limit).map (· ++ str "...") else some s

/-- `syntect::util::LinesWithEndings`: split the text into lines, each
keeping its trailing `'\n'`; the last line may lack one. Also the segments
of Rust `str::split_inclusive('\n')`, whose count is `str::lines().count()`. -/
def linesWithEndings : List Char → List (List Char)
  | [] => []
  | c :: rest =>
    match linesWithEndings rest with
    | [] => [[c]]
    | l :: ls => if c = '\n' then [c] :: l :: ls else (c :: l) :: ls

/-- Rust `char::is_whitespace` (the Unicode White_Space property). -/
def isRustWs (c : Char) : Bool :=
  (0x9 ≤ c.val && c.val ≤ 0xD) || c.val = 0x20 || c.val = 0x85 ||
  c.val = 0xA0 || c.val = 0x1680 || (0x2000 ≤ c.val && c.val ≤ 0x200A) ||
  c.val = 0x2028 || c.val = 0x2029 || c.val = 0x202F || c.val = 0x205F ||
  c.val = 0x3000

/-- Rust `str::trim`: drop whitespace from both ends. -/
def rustTrim (s : List Char) : List Char :=
  ((s.dropWhile isRustWs).reverse.dropWhile isRustWs).reverse

/-- A fragment style, as the fields of `syntect::highlighting::Style`
relevant to rendering (foreground color and font-style flags). -/
structure Style where
  fgR : Nat
  fgG : Nat
  fgB : Nat
  bold : Bool
  italic : Bool
deriving DecidableEq, Repr

/-- `Style::default()`, used by the tokenizer-failure fallback. -/
def Style.default : Style := ⟨0, 0, 0, false, false⟩

/-- Decoded body of a successful Ollama reply (`struct OllamaResponse`). -/
structure OllamaResponse where
  response : List Char
  done : Bool
deriving DecidableEq, Repr

/-- One transcript turn (`struct ChatMessage`). -/
structure ChatMessage where
  role : List Char
  content : List Char
deriving DecidableEq, Repr

/-- The shared AI state (`struct AiState`): the mutex contents, flattened. -/
structure AiState where
  is_processing : Bool
  current_response : List Char
  chat_history : List ChatMessage
  error : Option (List Char)
deriving DecidableEq, Repr

/-- `AiState::new()`. -/
def AiState.new : AiState :=
  { is_processing := false, current_response := [], chat_history := [],
    error := none }

/-- The application state (`struct MyApp`), restricted to the fields the
document/AI logic reads or writes; purely visual fields (font size, panel
width/visibility, the static model list) and the loaded syntax/theme sets
(absorbed into the tokenizer parameter) are omitted. -/
structure MyApp where
  file_path : List Char
  file_content : List Char
  error_message : Option (List Char)
  highlighted_content : Option (List (List (Style × List Char)))
  ai_state : AiState
  current_question : List Char
  selected_model : List Char
  initial_summary_generated : Bool
deriving DecidableEq, Repr

/-- What one `load_file` call observes of the filesystem at the app's path:
`Path::exists` false, `fs::read_to_string` error, or the decoded content. -/
inductive FsEntry where
  | notFound
  | readErr (e : List Char)
  | ok (content : List Char)
deriving DecidableEq, Repr

/-- The HTTP request handed to the spawned worker thread (model id and
prompt; `stream:false` and the fixed sampling options carry no state). -/
structure Dispatch where
  model : List Char
  prompt : List Char
deriving DecidableEq, Repr

/-- Result of `response.json::<OllamaResponse>()`. -/
inductive BodyDecode where
  | ok (r : OllamaResponse)
  | err (e : List Char)
deriving DecidableEq, Repr

/-- Outcome of the worker's blocking `client.post(...).send()` and, when a
response arrived, its status and the attempted JSON decode of its body. -/
inductive HttpResult where
  | connectErr (e : List Char)
  | got (statusSuccess : Bool) (statusDisplay : List Char) (body : BodyDecode)
deriving DecidableEq, Repr

/-- The tokenizer parameter: for a line index and the line's text (with its
ending), the styled ranges syntect returns, or `none` for a tokenizer
error. Indexing by position captures the tokenizer's internal parse state
across the line sequence of one `highlight_content` run. -/
def Tok : Type := Nat → List Char → Option (List (Style × List Char))

/-- The per-line body of the `highlight_content` loop: the tokenizer's
ranges, or — on error — the whole line as one `Style::default()` fragment
(`unwrap_or_else(|_| vec![(Style::default(), line)])`). -/
def highlightLines (tok : Tok) : Nat → List (List Char) → List (List (Style × List Char))
  | _, [] => []
  | i, l :: ls =>
    (match tok i l with
     | some rs => rs
     | none => [(Style.default, l)]) :: highlightLines tok (i + 1) ls

/-- `MyApp::highlight_content`: empty content clears the highlighted
representation; otherwise every line of `LinesWithEndings` is highlighted. -/
def highlight_content (tok : Tok) (app : MyApp) : MyApp :=
  if app.file_content = [] then { app with highlighted_content := none }
  else
    let hls := highlightLines tok 0 (linesWithEndings app.file_content)
    { app with highlighted_content := some hls }

/-- The summarization prompt of `generate_initial_summary`: the content
truncated at 4000 bytes, wrapped in the fixed instruction template.
`none` models the byte-slice panic inside the truncation. -/
def summaryPrompt (content : List Char) : Option (List Char) :=
  (truncateBytes 4000 content).map fun tc =>
    str "Please provide a concise summary of the following document. Focus on the main purpose, key points, and structure:\n\n"
      ++ tc ++ str "\n\nSummary:"

/-- The Q&A prompt of `ask_question`: the content truncated at 3000 bytes,
wrapped in the question template embedding the literal question text. -/
def questionPrompt (content question : List Char) : Option (List Char) :=
  (truncateBytes 3000 content).map fun tc =>
    str "Based on the following document content:\n\n" ++ tc
      ++ str "\n\nPlease answer this question: " ++ question ++ str "\n\nAnswer:"

/-- The transcript turn `send_to_ai` pushes for a user question. -/
def userMsg (q : List Char) : ChatMessage := ⟨str "user", q⟩

/-- `MyApp::send_to_ai`, synchronous part: set the in-flight flag, clear
the current response and error, push the user turn unless this is the
automatic summary, and spawn the worker (returned as the `Dispatch`). -/
def send_to_ai (app : MyApp) (prompt : List Char) (is_summary : Bool) :
    MyApp × Dispatch :=
  let st := app.ai_state
  let st := { st with is_processing := true, current_response := [],
                      error := none }
  let st :=
    if is_summary then st
    else { st with chat_history := st.chat_history ++ [userMsg app.current_question] }
  ({ app with ai_state := st }, ⟨app.selected_model, prompt⟩)

/-- Error message for `client.post(...).send()` failing. -/
def connectFailMsg (e : List Char) : List Char :=
  str "Failed to connect to Ollama. Make sure Ollama is running: " ++ e

/-- Error message for a non-success HTTP status. -/
def apiFailMsg (statusDisplay : List Char) : List Char :=
  str "API request failed: " ++ statusDisplay

/-- Error message for an undecodable response body. -/
def parseFailMsg (e : List Char) : List Char :=
  str "Failed to parse response: " ++ e

/-- The body of the worker thread spawned by `send_to_ai`, as a function of
the HTTP outcome acting on the shared `AiState`: on success store the text
and append the assistant turn; on any failure store the error message; in
all cases finally clear the in-flight flag. -/
def ai_worker (res : HttpResult) (st : AiState) : AiState :=
  let st :=
    match res with
    | .got true _ (.ok r) =>
        { st with current_response := r.response,
                  chat_history := st.chat_history ++ [ChatMessage.mk (str "assistant") r.response] }
    | .got true _ (.err e) => { st with error := some (parseFailMsg e) }
    | .got false d _ => { st with error := some (apiFailMsg d) }
    | .connectErr e => { st with error := some (connectFailMsg e) }
  { st with is_processing := false }

/-- Whether the HTTP outcome takes one of the three failure branches of the
worker (connection failure, non-success status, or decode failure). -/
def HttpResult.isFailure : HttpResult → Bool
  | .connectErr _ => true
  | .got s _ b => !s || (match b with | .err _ => true | .ok _ => false)

/-- `MyApp::generate_initial_summary`: build the summarization prompt and
send it with `is_summary = true`; `none` models the truncation panic. -/
def generate_initial_summary (app : MyApp) : Option (MyApp × Dispatch) :=
  (summaryPrompt app.file_content).map fun p => send_to_ai app p true

/-- `MyApp::ask_question`: do nothing when the trimmed question is empty;
otherwise build the Q&A prompt, send it with `is_summary = false`, and
clear the input box. The `Option Dispatch` is the worker spawned (if any);
the outer `none` models the truncation panic. -/
def ask_question (app : MyApp) : Option (MyApp × Option Dispatch) :=
  if rustTrim app.current_question = [] then some (app, none)
  else
    (questionPrompt app.file_content app.current_question).map fun p =>
      let r := send_to_ai app p false
      ({ r.1 with current_question := [] }, some r.2)

/-- `MyApp::load_file`: missing path or read error store the message and
clear the highlighted representation; a successful read stores the content,
clears the error, re-highlights, and — once per process, guarded by
`initial_summary_generated` — dispatches the automatic summary. -/
def load_file (tok : Tok) (app : MyApp) (entry : FsEntry) :
    Option (MyApp × Option Dispatch) :=
  match entry with
  | .notFound =>
      some ({ app with
                error_message := some (str "File not found: " ++ app.file_path),
                highlighted_content := none }, none)
  | .readErr e =>
      some ({ app with
                error_message := some (str "Error reading file: " ++ e),
                highlighted_content := none }, none)
  | .ok content =>
      let app := { app with file_content := content, error_message := none }
      let app := highlight_content tok app
      if !app.initial_summary_generated && !(app.file_content = []) then
        (generate_initial_summary app).map fun r =>
          ({ r.1 with initial_summary_generated := true }, some r.2)
      else some (app, none)

/-- `MyApp::clear_chat`: empty the transcript, clear the response, error
and input box, then re-dispatch the automatic summary when content is
loaded. -/
def clear_chat (app : MyApp) : Option (MyApp × Option Dispatch) :=
  let st := { app.ai_state with chat_history := ([] : List ChatMessage), current_response := ([] : List Char), error := none }
  let app := { app with ai_state := st, current_question := [] }
  if !(app.file_content = []) then
    (generate_initial_summary app).map fun r => (r.1, some r.2)
  else some (app, none)

/-- `MyApp::get_file_info`, as the three numbers it formats: `none` when
the content is empty (the empty string is shown), otherwise
(`lines().count()`, `chars().count()`, `len()`). `str::lines` maps each
`split_inclusive('\n')` segment to its stripped form, so its count is the
segment count. -/
def get_file_info (content : List Char) : Option (Nat × Nat × Nat) :=
  if content = [] then none
  else some ((linesWithEndings content).length, content.length, byteLen content)

/-- The message set by `MyApp::new` when no path was given. -/
def noPathMsg : List Char :=
  str "No file path provided. Usage: tty_doc <file_path>"

/-- The field initializers of `MyApp::new` before it loads anything. -/
def appInit (path : List Char) : MyApp :=
  { file_path := path, file_content := [], error_message := none,
    highlighted_content := none, ai_state := AiState.new,
    current_question := [], selected_model := str "llama2",
    initial_summary_generated := false }

/-- `MyApp::new`: build the initial state, then load the file when a path
was given, else record the no-path error. The `Option Dispatch` is the
automatic summary request dispatched by the startup load, if any. -/
def MyApp.new (tok : Tok) (path : List Char) (entry : FsEntry) :
    Option (MyApp × Option Dispatch) :=
  if !(path = []) then load_file tok (appInit path) entry
  else some ({ appInit path with error_message := some noPathMsg }, none)

/-- `main`'s extraction of the path from the argument vector:
`args[1]` when present, else the empty string. -/
def filePathOfArgs (args : List (List Char)) : List Char :=
  if args.length > 1 then args.getD 1 [] else []

/-- A sequence of `load_file` calls (the startup load followed by any
number of "Try Again" reloads), each against the filesystem state it
observes, counting the automatic summary dispatches; `none` when any call
panics. -/
def runLoads (tok : Tok) : MyApp → List FsEntry → Option (MyApp × Nat)
  | app, [] => some (app, 0)
  | app, e :: es =>
    (load_file tok app e).bind fun r =>
      (runLoads tok r.1 es).map fun s =>
        (s.1, (if r.2.isSome then 1 else 0) + s.2)

/-- Concatenation of the text fragments of one highlighted line. -/
def fragsJoin (rs : List (Style × List Char)) : List Char :=
  (rs.map Prod.snd).flatten

/-- A tokenizer that always fails, exercising the fallback path. -/
def tokFail : Tok := fun _ _ => none

/-- An app state with a document already loaded, used to probe a later
failing reload. -/
def appLoaded : MyApp := { appInit (str "f.txt") with file_content := str "old" }

/-- An app state with a small loaded document. -/
def appDoc : MyApp := { appInit (str "d.md") with file_content := str "ab\nc" }

/-- An app state with a loaded document and a typed question. -/
def appQ : MyApp :=
  { appInit (str "f") with file_content := str "doc",
                           current_question := str "summarize" }

/-- The state `ask_question` reaches from `appQ`: question box cleared,
in-flight flag set, the user turn appended. -/
def appQ2 : MyApp :=
  { appQ with current_question := [],
              ai_state := { is_processing := true, current_response := [],
                            chat_history := [userMsg (str "summarize")],
                            error := none } }

/-- The request `ask_question` dispatches from `appQ`. -/
def dpQ : Dispatch :=
  ⟨str "llama2",
   str "Based on the following document content:\n\ndoc\n\nPlease answer this question: summarize\n\nAnswer:"⟩

/-- Content of 4002 UTF-8 bytes whose byte 4000 falls inside the 3-byte
character `'€'`: the summary truncation byte-slices it at 4000. -/
def badDoc4000 : List Char := List.replicate 3998 'a' ++ ['€', 'b']

/-- Content of 3002 UTF-8 bytes whose byte 3000 falls inside `'€'`: the
Q&A truncation byte-slices it at 3000. -/
def badDoc3000 : List Char := List.replicate 2998 'a' ++ ['€', 'b']

/-- The state one successful load of content `"a"` reaches from
`appInit (str "f")` under `tokFail`. -/
def appOneLoad : MyApp :=
  { file_path := str "f", file_content := str "a", error_message := none,
    highlighted_content := some [[(Style.default, str "a")]],
    ai_state := { is_processing := true, current_response := [],
                  chat_history := [], error := none },
    current_question := [], selected_model := str "llama2",
    initial_summary_generated := true }

/-- The state a failing reload reaches from `appLoaded`. -/
def appErr : MyApp :=
  { appLoaded with error_message := some (str "File not found: f.txt"),
                   highlighted_content := none }

theorem charBytes_pos (c : Char) : 1 ≤ charBytes c := by
  unfold charBytes
  repeat' split
  all_goals omega

theorem byteLen_ge_length (s : List Char) : s.length ≤ byteLen s := by
  induction s with
  | nil => simp [byteLen]
  | cons c cs ih =>
    have := charBytes_pos c
    simp only [byteLen, List.map_cons, List.sum_cons, List.length_cons] at ih ⊢
    omega

theorem linesWithEndings_ne_nil (c : Char) (s : List Char) :
    linesWithEndings (c :: s) ≠ [] := by
  unfold linesWithEndings
  cases h : linesWithEndings s with
  | nil => simp
  | cons l ls => by_cases hc : c = '\n' <;> simp [hc]

theorem linesWithEndings_flatten (s : List Char) :
    (linesWithEndings s).flatten = s := by
  induction s with
  | nil => rfl
  | cons c rest ih =>
    unfold linesWithEndings
    cases h : linesWithEndings rest with
    | nil =>
      cases rest with
      | nil => simp
      | cons c2 rs => exact absurd h (linesWithEndings_ne_nil c2 rs)
    | cons l ls =>
      rw [h] at ih
      by_cases hc : c = '\n' <;>
        simp [hc, List.flatten_cons] <;>
        simpa [List.flatten_cons] using ih

theorem linesWithEndings_length (s : List Char) :
    (linesWithEndings s).length =
      List.count '\n' s +
        (if s.getLast? = some '\n' then 0 else if s = [] then 0 else 1) := by
  induction s with
  | nil => simp [linesWithEndings]
  | cons c rest ih =>
    cases rest with
    | nil =>
      by_cases hc : c = '\n' <;> simp [linesWithEndings, hc, List.count_cons]
    | cons c2 rs =>
      rw [List.getLast?_cons_cons]
      cases h : linesWithEndings (c2 :: rs) with
      | nil => exact absurd h (linesWithEndings_ne_nil c2 rs)
      | cons l ls =>
        rw [h] at ih
        unfold linesWithEndings
        rw [h]
        have hr : (c2 :: rs : List Char) ≠ [] := by simp
        by_cases hc : c = '\n' <;>
          by_cases hl : (c2 :: rs : List Char).getLast? = some '\n' <;>
          simp [hc, hl, hr, List.count_cons] at ih ⊢ <;> omega

theorem highlightLines_fragsJoin (tok : Tok)
    (hc : ∀ i l rs, tok i l = some rs → fragsJoin rs = l) :
    ∀ (i : Nat) (lines : List (List Char)),
      ((highlightLines tok i lines).map fragsJoin).flatten = lines.flatten := by
  intro i lines
  induction lines generalizing i with
  | nil => rfl
  | cons l ls ih =>
    unfold highlightLines
    cases h : tok i l with
    | none => simp [fragsJoin, List.flatten_cons, ih (i + 1)]
    | some rs => simp [List.flatten_cons, hc i l rs h, ih (i + 1)]

/-- C3: concatenating the text fragments of the highlighted representation,
across all lines in order and within each line in order, yields exactly the
original document content, for every tokenizer whose successful per-line
ranges concatenate back to the line — the fallback path (a failing line
rendered as one unstyled fragment) included. -/
theorem highlight_reconstructs (tok : Tok) (app : MyApp)
    (hc : ∀ i l rs, tok i l = some rs → fragsJoin rs = l)
    (hls : List (List (Style × List Char)))
    (h : (highlight_content tok app).highlighted_content = some hls) :
    (hls.map fragsJoin).flatten = app.file_content := by
  unfold highlight_content at h
  by_cases he : app.file_content = []
  · simp [he] at h
  · rw [if_neg he] at h
    have h2 : highlightLines tok 0 (linesWithEndings app.file_content) = hls := by
      simpa using h
    rw [← h2, highlightLines_fragsJoin tok hc, linesWithEndings_flatten]

/-- Witness for C3 at content `"ab\nc"` under the always-failing tokenizer. -/
theorem highlight_reconstructs_wit :
    (([[(Style.default, str "ab\n")], [(Style.default, str "c")]].map fragsJoin).flatten
      = appDoc.file_content) :=
  highlight_reconstructs tokFail appDoc
    (fun _ _ rs h => Option.noConfusion h)
    [[(Style.default, str "ab\n")], [(Style.default, str "c")]]
    (by decide)

/-- C4: for non-empty content, the status-bar numbers satisfy: the line
count equals the number of `'\n'` terminators plus one exactly when the
content does not end with a terminator, and the byte count is at least the
character count. -/
theorem file_info_counts (content : List Char) (h : content ≠ []) :
    get_file_info content =
      some (List.count '\n' content +
              (if content.getLast? = some '\n' then 0 else 1),
            content.length, byteLen content) ∧
    content.length ≤ byteLen content := by
  refine ⟨?_, byteLen_ge_length content⟩
  simp [get_file_info, h, linesWithEndings_length]

/-- Witness for C4 at content `"x\ny"`. -/
theorem file_info_counts_wit :
    str "x\ny" ≠ [] ∧
    get_file_info (str "x\ny") =
      some (List.count '\n' (str "x\ny") +
              (if (str "x\ny").getLast? = some '\n' then 0 else 1),
            (str "x\ny").length, byteLen (str "x\ny")) ∧
    (str "x\ny").length ≤ byteLen (str "x\ny") :=
  ⟨by decide, file_info_counts (str "x\ny") (by decide)⟩

/-- C9: empty document content yields no highlighted output. -/
theorem highlight_empty (tok : Tok) (app : MyApp)
    (h : app.file_content = []) :
    (highlight_content tok app).highlighted_content = none := by
  simp [highlight_content, h]

/-- Witness for C9 at the freshly initialized app. -/
theorem highlight_empty_wit :
    (appInit (str "x")).file_content = [] ∧
    (highlight_content tokFail (appInit (str "x"))).highlighted_content = none :=
  ⟨by decide, highlight_empty tokFail (appInit (str "x")) (by decide)⟩

theorem byteLen_append (s t : List Char) :
    byteLen (s ++ t) = byteLen s + byteLen t := by
  simp [byteLen]

theorem byteLen_replicate (n : Nat) (c : Char) :
    byteLen (List.replicate n c) = n * charBytes c := by
  simp [byteLen, List.map_replicate, List.sum_replicate, smul_eq_mul]

theorem takeBytes_replicate (c : Char) (hc : charBytes c = 1)
    (rest : List Char) :
    ∀ n m, takeBytes (List.replicate n c ++ rest) (n + (m + 1)) =
      (takeBytes rest (m + 1)).map (List.replicate n c ++ ·) := by
  intro n
  induction n with
  | zero =>
    intro m
    simp only [List.replicate_zero, List.nil_append, Nat.zero_add]
    cases h : takeBytes rest (m + 1) <;> simp [h]
  | succ n ih =>
    intro m
    have e1 : List.replicate (n + 1) c ++ rest = c :: (List.replicate n c ++ rest) := by
      simp [List.replicate_succ]
    have e2 : n + 1 + (m + 1) = (n + (m + 1)) + 1 := by omega
    rw [e1, e2, takeBytes, hc]
    simp only [if_pos (by omega : 1 ≤ n + (m + 1) + 1)]
    have e3 : n + (m + 1) + 1 - 1 = n + (m + 1) := by omega
    rw [e3, ih m]
    cases takeBytes rest (m + 1) <;> simp [List.replicate_succ]

theorem byteLen_badDoc4000 : byteLen badDoc4000 = 4002 := by
  rw [badDoc4000, byteLen_append, byteLen_replicate]
  norm_num [byteLen, charBytes]
  decide

theorem byteLen_badDoc3000 : byteLen badDoc3000 = 3002 := by
  rw [badDoc3000, byteLen_append, byteLen_replicate]
  norm_num [byteLen, charBytes]
  decide

theorem takeBytes_badDoc4000 : takeBytes badDoc4000 4000 = none := by
  have e : (4000 : Nat) = 3998 + (1 + 1) := by norm_num
  rw [badDoc4000, e, takeBytes_replicate 'a' (by decide)]
  have h2 : takeBytes ['€', 'b'] (1 + 1) = none := by decide
  rw [h2]
  rfl

theorem takeBytes_badDoc3000 : takeBytes badDoc3000 3000 = none := by
  have e : (3000 : Nat) = 2998 + (1 + 1) := by norm_num
  rw [badDoc3000, e, takeBytes_replicate 'a' (by decide)]
  have h2 : takeBytes ['€', 'b'] (1 + 1) = none := by decide
  rw [h2]
  rfl

/-- C2: refuted on the code — prompt construction is not total. For content
whose 4000th (resp. 3000th) byte falls inside a multi-byte character, the
byte-slice `&content[..4000]` (resp. `[..3000]`) of the truncation step
panics; here both prompt constructions return `none` (the panic) on
concrete 4002-byte and 3002-byte documents whose truncation boundary falls
inside the 3-byte character `'€'`. -/
theorem prompt_truncation_panics :
    summaryPrompt badDoc4000 = none ∧
    questionPrompt badDoc3000 (str "q") = none ∧
    byteLen badDoc4000 = 4002 ∧ byteLen badDoc3000 = 3002 := by
  refine ⟨?_, ?_, byteLen_badDoc4000, byteLen_badDoc3000⟩
  · rw [summaryPrompt, truncateBytes,
        if_pos (by rw [byteLen_badDoc4000]; norm_num), takeBytes_badDoc4000]
    rfl
  · rw [questionPrompt, truncateBytes,
        if_pos (by rw [byteLen_badDoc3000]; norm_num), takeBytes_badDoc3000]
    rfl

/-- C1 counterexample: a load attempt that fails (file not found) after
content `"old"` was loaded stores the error message but leaves the content
`"old"`, not empty — refuting "the document content is empty after the
call, regardless of what content was loaded before the attempt". -/
theorem load_failure_empties_content_cex :
    load_file tokFail appLoaded FsEntry.notFound = some (appErr, none) ∧
    appErr.error_message = some (str "File not found: f.txt") ∧
    appErr.file_content = str "old" ∧
    str "old" ≠ ([] : List Char) := by
  refine ⟨?_, rfl, rfl, by decide⟩
  rfl

/-- C1 (amended): every load attempt that fails — path not resolving to an
existing entry, or the full-file read failing — stores the corresponding
error message, clears the highlighted representation, dispatches nothing,
and leaves the document content unchanged (hence still empty whenever no
content had been loaded before the attempt). -/
theorem load_failure_amended (tok : Tok) (app : MyApp) :
    (∀ r, load_file tok app FsEntry.notFound = some r →
       r.2 = none ∧ r.1.file_content = app.file_content ∧
       r.1.highlighted_content = none ∧
       r.1.error_message = some (str "File not found: " ++ app.file_path))
  ∧ (∀ e r, load_file tok app (FsEntry.readErr e) = some r →
       r.2 = none ∧ r.1.file_content = app.file_content ∧
       r.1.highlighted_content = none ∧
       r.1.error_message = some (str "Error reading file: " ++ e)) := by
  constructor
  · intro r h
    rw [load_file] at h
    injection h with h1
    subst h1
    exact ⟨rfl, rfl, rfl, rfl⟩
  · intro e r h
    rw [load_file] at h
    injection h with h1
    subst h1
    exact ⟨rfl, rfl, rfl, rfl⟩

/-- Witness for C1 (amended) at a failing reload over loaded content. -/
theorem load_failure_amended_wit :
    ((appErr, (none : Option Dispatch)).2 = none ∧
     (appErr, (none : Option Dispatch)).1.file_content = appLoaded.file_content ∧
     (appErr, (none : Option Dispatch)).1.highlighted_content = none ∧
     (appErr, (none : Option Dispatch)).1.error_message =
       some (str "File not found: " ++ appLoaded.file_path)) :=
  (load_failure_amended tokFail appLoaded).1 (appErr, none) (by decide)

/-- C5: the worker stores the corresponding human-readable error string and
leaves the transcript unchanged on connection failure, non-success status,
or decode failure; it clears the in-flight flag in all cases; and after a
user question whose request hits an unreachable endpoint, the transcript
holds exactly the old turns plus the one user turn, with the
connection-failure error stored and the flag cleared. -/
theorem ai_worker_failure :
    (∀ st res, (ai_worker res st).is_processing = false)
  ∧ (∀ st e, (ai_worker (HttpResult.connectErr e) st).error = some (connectFailMsg e) ∧
       (ai_worker (HttpResult.connectErr e) st).chat_history = st.chat_history)
  ∧ (∀ st d b, (ai_worker (HttpResult.got false d b) st).error = some (apiFailMsg d) ∧
       (ai_worker (HttpResult.got false d b) st).chat_history = st.chat_history)
  ∧ (∀ st d e, (ai_worker (HttpResult.got true d (BodyDecode.err e)) st).error =
         some (parseFailMsg e) ∧
       (ai_worker (HttpResult.got true d (BodyDecode.err e)) st).chat_history =
         st.chat_history)
  ∧ (∀ app r e, ask_question app = some r → ∀ dp, r.2 = some dp →
       (ai_worker (HttpResult.connectErr e) r.1.ai_state).chat_history =
         app.ai_state.chat_history ++ [userMsg app.current_question] ∧
       (ai_worker (HttpResult.connectErr e) r.1.ai_state).error =
         some (connectFailMsg e) ∧
       (ai_worker (HttpResult.connectErr e) r.1.ai_state).is_processing = false) := by
  refine ⟨?_, fun st e => ⟨rfl, rfl⟩, fun st d b => ⟨rfl, rfl⟩,
          fun st d e => ⟨rfl, rfl⟩, ?_⟩
  · intro st res
    cases res with
    | connectErr e => rfl
    | got s d b => cases s <;> cases b <;> rfl
  · intro app r e h dp hd
    rw [ask_question] at h
    by_cases ht : rustTrim app.current_question = []
    · rw [if_pos ht] at h
      injection h with h1
      subst h1
      simp at hd
    · rw [if_neg ht] at h
      cases hq : questionPrompt app.file_content app.current_question with
      | none => rw [hq] at h; simp at h
      | some p =>
        rw [hq] at h
        injection h with h1
        subst h1
        exact ⟨rfl, rfl, rfl⟩

/-- Witness for C5: a user question from `appQ` followed by a
connection-failure outcome. -/
theorem ai_worker_failure_wit :
    ((ai_worker (HttpResult.connectErr (str "refused"))
        ((appQ2, some dpQ) : MyApp × Option Dispatch).1.ai_state).chat_history =
       appQ.ai_state.chat_history ++ [userMsg appQ.current_question] ∧
     (ai_worker (HttpResult.connectErr (str "refused"))
        ((appQ2, some dpQ) : MyApp × Option Dispatch).1.ai_state).error =
       some (connectFailMsg (str "refused")) ∧
     (ai_worker (HttpResult.connectErr (str "refused"))
        ((appQ2, some dpQ) : MyApp × Option Dispatch).1.ai_state).is_processing = false) :=
  ai_worker_failure.2.2.2.2 appQ (appQ2, some dpQ) (str "refused") (by decide) dpQ rfl

/-- C6: a dispatched user question appends the user turn with the typed
question text synchronously, in the state handed to the spawned worker;
the automatic summarization request appends no user turn. -/
theorem user_turn_sync :
    (∀ app r, rustTrim app.current_question ≠ [] →
       ask_question app = some r →
       r.2.isSome = true ∧
       r.1.ai_state.chat_history =
         app.ai_state.chat_history ++ [userMsg app.current_question])
  ∧ (∀ app r, generate_initial_summary app = some r →
       r.1.ai_state.chat_history = app.ai_state.chat_history) := by
  constructor
  · intro app r ht h
    rw [ask_question, if_neg ht] at h
    cases hq : questionPrompt app.file_content app.current_question with
    | none => rw [hq] at h; simp at h
    | some p =>
      rw [hq] at h
      injection h with h1
      subst h1
      exact ⟨rfl, rfl⟩
  · intro app r h
    rw [generate_initial_summary] at h
    cases hq : summaryPrompt app.file_content with
    | none => rw [hq] at h; simp at h
    | some p =>
      rw [hq] at h
      injection h with h1
      subst h1
      rfl

/-- Witness for C6 at `appQ`. -/
theorem user_turn_sync_wit :
    rustTrim appQ.current_question ≠ [] ∧
    (((appQ2, some dpQ) : MyApp × Option Dispatch).2.isSome = true ∧
     ((appQ2, some dpQ) : MyApp × Option Dispatch).1.ai_state.chat_history =
       appQ.ai_state.chat_history ++ [userMsg appQ.current_question]) :=
  ⟨by decide, user_turn_sync.1 appQ (appQ2, some dpQ) (by decide) (by decide)⟩

/-- C7: clearing the chat empties the transcript, resets the response and
error state, and dispatches exactly one new automatic summarization request
(recording no user turn for it) if and only if the document content is
non-empty. -/
theorem clear_chat_resets (app : MyApp) (r : MyApp × Option Dispatch)
    (h : clear_chat app = some r) :
    r.1.ai_state.chat_history = [] ∧
    r.1.ai_state.current_response = [] ∧
    r.1.ai_state.error = none ∧
    (r.2.isSome = true ↔ app.file_content ≠ []) := by
  rw [clear_chat] at h
  by_cases he : app.file_content = []
  · rw [if_neg (by simp [he])] at h
    injection h with h1
    subst h1
    exact ⟨rfl, rfl, rfl, by simp [he]⟩
  · rw [if_pos (by simp [he])] at h
    rw [generate_initial_summary] at h
    cases hq : summaryPrompt app.file_content with
    | none => rw [hq] at h; simp at h
    | some p =>
      rw [hq] at h
      injection h with h1
      subst h1
      exact ⟨rfl, rfl, rfl, by simp [he]⟩

/-- Witness for C7 at `appDoc` (non-empty content, hence one dispatch). -/
theorem clear_chat_resets_wit :
    ((send_to_ai appDoc
        (str "Please provide a concise summary of the following document. Focus on the main purpose, key points, and structure:\n\nab\nc\n\nSummary:")
        true).1.ai_state.chat_history = [] ∧
     (send_to_ai appDoc
        (str "Please provide a concise summary of the following document. Focus on the main purpose, key points, and structure:\n\nab\nc\n\nSummary:")
        true).1.ai_state.current_response = [] ∧
     (send_to_ai appDoc
        (str "Please provide a concise summary of the following document. Focus on the main purpose, key points, and structure:\n\nab\nc\n\nSummary:")
        true).1.ai_state.error = none ∧
     ((some (send_to_ai appDoc
        (str "Please provide a concise summary of the following document. Focus on the main purpose, key points, and structure:\n\nab\nc\n\nSummary:")
        true).2 : Option Dispatch).isSome = true ↔ appDoc.file_content ≠ [])) := by
  have h := clear_chat_resets appDoc
    ((send_to_ai appDoc
        (str "Please provide a concise summary of the following document. Focus on the main purpose, key points, and structure:\n\nab\nc\n\nSummary:")
        true).1,
     some (send_to_ai appDoc
        (str "Please provide a concise summary of the following document. Focus on the main purpose, key points, and structure:\n\nab\nc\n\nSummary:")
        true).2)
    (by decide)
  exact h

/-- C8: when the command-line path argument is absent or empty (so the path
string is empty), the app records the "No file path provided" error, the
content is the empty string, and no load is attempted — the result does not
depend on the filesystem. -/
theorem no_path_error (tok : Tok) (args : List (List Char)) (entry : FsEntry)
    (h : filePathOfArgs args = []) :
    MyApp.new tok (filePathOfArgs args) entry =
      some ({ appInit [] with error_message := some noPathMsg }, none) ∧
    ({ appInit [] with error_message := some noPathMsg } : MyApp).file_content = [] := by
  refine ⟨?_, rfl⟩
  rw [h, MyApp.new]
  simp

/-- Witness for C8 with only the program name in the argument vector. -/
theorem no_path_error_wit :
    filePathOfArgs [str "tty_doc"] = [] ∧
    (MyApp.new tokFail (filePathOfArgs [str "tty_doc"]) FsEntry.notFound =
       some ({ appInit [] with error_message := some noPathMsg }, none) ∧
     ({ appInit [] with error_message := some noPathMsg } : MyApp).file_content = []) :=
  ⟨by decide, no_path_error tokFail [str "tty_doc"] FsEntry.notFound (by decide)⟩

theorem highlight_content_fields (tok : Tok) (app : MyApp) :
    (highlight_content tok app).initial_summary_generated =
      app.initial_summary_generated ∧
    (highlight_content tok app).file_content = app.file_content := by
  rw [highlight_content]
  split
  · exact ⟨rfl, rfl⟩
  · exact ⟨rfl, rfl⟩

theorem load_file_flag_true (tok : Tok) (app : MyApp) (entry : FsEntry)
    (hf : app.initial_summary_generated = true) :
    ∀ r, load_file tok app entry = some r →
      r.2 = none ∧ r.1.initial_summary_generated = true := by
  intro r h
  cases entry with
  | notFound =>
    rw [load_file] at h
    injection h with h1
    subst h1
    exact ⟨rfl, hf⟩
  | readErr e =>
    rw [load_file] at h
    injection h with h1
    subst h1
    exact ⟨rfl, hf⟩
  | ok content =>
    simp only [load_file] at h
    have hc := (highlight_content_fields tok
      { app with file_content := content, error_message := none }).1
    split at h
    · rename_i hcond
      rw [hc] at hcond
      simp [hf] at hcond
    · injection h with h1
      subst h1
      refine ⟨rfl, ?_⟩
      rw [hc]
      exact hf

theorem load_file_dispatch_flag (tok : Tok) (app : MyApp) (entry : FsEntry) :
    ∀ r, load_file tok app entry = some r → r.2.isSome = true →
      r.1.initial_summary_generated = true := by
  intro r h hd
  cases entry with
  | notFound =>
    rw [load_file] at h
    injection h with h1
    subst h1
    simp at hd
  | readErr e =>
    rw [load_file] at h
    injection h with h1
    subst h1
    simp at hd
  | ok content =>
    simp only [load_file] at h
    split at h
    · rw [Option.map_eq_some'] at h
      obtain ⟨y, hy, hr⟩ := h
      subst hr
      rfl
    · injection h with h1
      subst h1
      simp at hd

theorem runLoads_flag_true (tok : Tok) :
    ∀ (es : List FsEntry) (app : MyApp), app.initial_summary_generated = true →
      ∀ s, runLoads tok app es = some s → s.2 = 0 := by
  intro es
  induction es with
  | nil =>
    intro app hf s h
    rw [runLoads] at h
    injection h with h1
    subst h1
    rfl
  | cons e es ih =>
    intro app hf s h
    rw [runLoads] at h
    rw [Option.bind_eq_some] at h
    obtain ⟨r, hr, h2⟩ := h
    rw [Option.map_eq_some'] at h2
    obtain ⟨t, ht, hs⟩ := h2
    subst hs
    obtain ⟨hd, hflag⟩ := load_file_flag_true tok app e hf r hr
    have ht0 := ih r.1 hflag t ht
    simp [hd, ht0]

/-- C10: across any sequence of `load_file` calls of one process, the
automatic startup summarization is dispatched at most once: from a state
with the guard flag unset, a successful load dispatches it exactly when the
content is non-empty and then sets `initial_summary_generated`, and the
total number of dispatches over any sequence of loads is at most one. -/
theorem summary_dispatched_once (tok : Tok) :
    (∀ app content r, app.initial_summary_generated = false →
       load_file tok app (FsEntry.ok content) = some r →
       (r.2.isSome = true ↔ content ≠ []) ∧
       (r.2.isSome = true → r.1.initial_summary_generated = true))
  ∧ (∀ es app s, app.initial_summary_generated = false →
       runLoads tok app es = some s → s.2 ≤ 1) := by
  constructor
  · intro app content r hf h
    simp only [load_file] at h
    have hc := highlight_content_fields tok
      { app with file_content := content, error_message := none }
    split at h
    · rename_i hcond
      rw [hc.1, hc.2] at hcond
      rw [Option.map_eq_some'] at h
      obtain ⟨y, hy, hr⟩ := h
      subst hr
      simp at hcond ⊢
      exact hcond.2
    · rename_i hcond
      rw [hc.1, hc.2] at hcond
      injection h with h1
      subst h1
      simp [hf] at hcond ⊢
      exact hcond
  · intro es
    induction es with
    | nil =>
      intro app s hf h
      rw [runLoads] at h
      injection h with h1
      subst h1
      simp
    | cons e es ih =>
      intro app s hf h
      rw [runLoads] at h
      rw [Option.bind_eq_some] at h
      obtain ⟨r, hr, h2⟩ := h
      rw [Option.map_eq_some'] at h2
      obtain ⟨t, ht, hs⟩ := h2
      subst hs
      by_cases hflag : r.1.initial_summary_generated = true
      · have ht0 := runLoads_flag_true tok es r.1 hflag t ht
        simp [ht0]
        split <;> omega
      · have hflag2 : r.1.initial_summary_generated = false := by
          cases hfv : r.1.initial_summary_generated
          · rfl
          · exact absurd hfv hflag
        have hle := ih r.1 t hflag2 ht
        have hd : r.2 = none := by
          cases hdv : r.2 with
          | none => rfl
          | some dp =>
            exact absurd
              (load_file_dispatch_flag tok app e r hr (by simp [hdv])) hflag
        simp [hd]
        omega

/-- Witness for C10: a startup state, one successful load of `"a"`, one
dispatch. -/
theorem summary_dispatched_once_wit :
    (appInit (str "f")).initial_summary_generated = false ∧
    runLoads tokFail (appInit (str "f")) [FsEntry.ok (str "a")] =
      some (appOneLoad, 1) ∧
    ((appOneLoad, 1) : MyApp × Nat).2 ≤ 1 :=
  ⟨rfl, by decide,
   (summary_dispatched_once tokFail).2 [FsEntry.ok (str "a")]
     (appInit (str "f")) (appOneLoad, 1) rfl (by decide)⟩
